import Mathlib

/-!
Shallow embedding of the yukinator repository (a typed Python client for the
Ergast F1 REST API) and proofs about it.

Source files embedded here:
  * `yukinator/utils.py`     — the `flat_dict` nested-mapping flattener
  * `yukinator/objects.py`   — typed records (DTOs) with field coercions
  * `yukinator/yukinator.py` — URL building, request validation, getters

Python JSON values are modelled by the inductive `PyVal`; Python dicts are
association lists in insertion order with unique keys (constructed through
`dictOf`, which models `dict(generator)` semantics: first-occurrence key
order, last value wins).  Python exceptions are modelled by `Except PyErr`.
-/

/-- A parsed JSON / Python value as it appears in the repository's data flow.
`vfloat` models a Python float by an exact rational (the values handled by the
repository are short decimal literals, represented exactly). -/
inductive PyVal where
  | vstr : String → PyVal
  | vint : Int → PyVal
  | vfloat : Rat → PyVal
  | vnone : PyVal
  | vdate : Nat → Nat → Nat → PyVal
  | vtime : Nat → Nat → Nat → PyVal
  | vdict : List (String × PyVal) → PyVal
  | vlist : List PyVal → PyVal

/-- Python exception kinds raised by the embedded code paths. -/
inductive PyErr where
  | typeError : PyErr
  | valueError : PyErr
  | keyError : String → PyErr
  | httpError : Nat → PyErr
  | wrongQueryParameters : PyErr
  | wrongDirectory : PyErr
deriving Repr, DecidableEq

/-- Is the value a mapping (`isinstance(v, MutableMapping)` in the source)? -/
def PyVal.isDictB : PyVal → Bool
  | PyVal.vdict _ => true
  | _ => false

/-- First-match lookup in an association list (Python `d[k]` / `k in d`;
dicts built by this development have unique keys). -/
def dlookup (d : List (String × PyVal)) (k : String) : Option PyVal :=
  match d with
  | [] => Option.none
  | (k₁, v) :: rest => if k₁ = k then some v else dlookup rest k

/-- One dict insertion `d[k] = v`: overwrite in place when the key exists,
append otherwise. -/
def dictInsert (d : List (String × PyVal)) (k : String) (v : PyVal) :
    List (String × PyVal) :=
  match d with
  | [] => [(k, v)]
  | (k₁, v₁) :: rest =>
      if k₁ = k then (k₁, v) :: rest else (k₁, v₁) :: dictInsert rest k v

/-- `dictOf l` models Python `dict(l)`: insert the pairs one by one, so keys
appear in first-occurrence order, each bound to the last value given for it. -/
def dictOf (l : List (String × PyVal)) : List (String × PyVal) :=
  l.foldl (fun d kv => dictInsert d kv.1 kv.2) []

/-- Python `str.lower`: every character lower-cased (source uses it on the
accumulated parent key in `flat_dict`). -/
def pyLower (s : String) : String := String.mk (s.data.map Char.toLower)

/-- Python `str.capitalize`: first character upper-cased, all remaining
characters lower-cased. -/
def pyCapitalize (s : String) : String :=
  match s.data with
  | [] => ""
  | c :: rest => String.mk (Char.toUpper c :: rest.map Char.toLower)

/-- Truthiness of the `keys` argument of `flat_dict` (`if keys:` in the
source): `None` and the empty list are falsy. -/
def keysTruthy : Option (List String) → Bool
  | Option.none => false
  | some l => !l.isEmpty

/-- Membership test `k in keys` of the source (only reached when `keys` is
truthy). -/
def keyMem (k : String) : Option (List String) → Bool
  | Option.none => false
  | some l => l.contains k

/-- The generator `_flatten_dict_gen` of `utils.flat_dict`, together with the
`dict(...)` call wrapped around each recursive `flatten_dict` call: walks the
entries of a mapping, synthesizing `parent_key.lower() + k.capitalize()` keys
(or `k` itself at top level) and descending into mapping values — always when
`keys` is falsy, and exactly for the listed keys when `keys` is truthy. -/
def flattenGen (keys : Option (List String)) (l : List (String × PyVal)) (pk : String) :
    List (String × PyVal) :=
  match l with
  | [] => []
  | (k, v) :: rest =>
    let nk := if pk ≠ "" then pyLower pk ++ pyCapitalize k else k
    (match v with
     | PyVal.vdict entries =>
       if keysTruthy keys then
         if keyMem k keys then dictOf (flattenGen keys entries nk)
         else [(nk, PyVal.vdict entries)]
       else dictOf (flattenGen keys entries nk)
     | _ => [(nk, v)]) ++ flattenGen keys rest pk
termination_by sizeOf l
decreasing_by
  · simp only [List.cons.sizeOf_spec, Prod.mk.sizeOf_spec, PyVal.vdict.sizeOf_spec]
    omega
  · simp only [List.cons.sizeOf_spec]
    omega

/-- `utils.flat_dict(d, keys)`: flatten a nested mapping into a single-level
mapping, descending only into the allow-listed keys when `keys` is truthy. -/
def flat_dict (d : List (String × PyVal)) (keys : Option (List String)) :
    List (String × PyVal) :=
  dictOf (flattenGen keys d "")

/-! ### Models of the Python builtins used by the coercion layer

`int(...)`, `float(...)` and `datetime.strptime` with the two fixed format
strings `"%Y-%m-%d"` and `"%H:%M:%S"`.  The models follow CPython's behaviour
on the ASCII inputs this API produces (no underscore separators, exponents or
special float forms, which never occur in the repository's data). -/

/-- The numeric value of a nonempty all-digit character run (`Option.none`
otherwise). -/
def digitsToNat (l : List Char) : Option Nat :=
  if l ≠ [] ∧ l.all Char.isDigit then
    some (l.foldl (fun n c => n * 10 + (c.toNat - 48)) 0)
  else Option.none

/-- Strip leading and trailing whitespace (Python `str.strip`, as `int` and
`float` apply it to string arguments). -/
def pyStrip (l : List Char) : List Char :=
  ((l.dropWhile Char.isWhitespace).reverse.dropWhile Char.isWhitespace).reverse

/-- Python `int(s)` on a string: optional surrounding whitespace, an
optional sign, then a nonempty digit run. -/
def pyIntOfString (s : String) : Option Int :=
  match pyStrip s.data with
  | '+' :: rest => (digitsToNat rest).map (fun n => (n : Int))
  | '-' :: rest => (digitsToNat rest).map (fun n => -(n : Int))
  | l => (digitsToNat l).map (fun n => (n : Int))

/-- Python `int(v)` as used by the `int` field converters: accepts ints,
floats (truncating toward zero) and numeric strings. -/
def pyIntCoerce : PyVal → Except PyErr Int
  | PyVal.vint n => Except.ok n
  | PyVal.vfloat q => Except.ok (if q ≥ 0 then q.floor else q.ceil)
  | PyVal.vstr s =>
      match pyIntOfString s with
      | some n => Except.ok n
      | Option.none => Except.error PyErr.valueError
  | _ => Except.error PyErr.typeError

/-- Split a character run at every occurrence of the separator. -/
def splitOnChar (sep : Char) : List Char → List (List Char)
  | [] => [[]]
  | c :: rest =>
      if c = sep then [] :: splitOnChar sep rest
      else match splitOnChar sep rest with
        | [] => [[c]]
        | g :: gs => (c :: g) :: gs

/-- Python `float(s)` on a string: optional surrounding whitespace, optional
sign, digits with an optional fractional part (`d+`, `d+.d*`, or `.d+`). -/
def pyFloatOfString (s : String) : Option Rat :=
  let signed : Bool × List Char :=
    match pyStrip s.data with
    | '+' :: rest => (false, rest)
    | '-' :: rest => (true, rest)
    | l => (false, l)
  let (neg, body) := signed
  let mag : Option Rat :=
    match splitOnChar '.' body with
    | [ip] => (digitsToNat ip).map (fun n => (n : Rat))
    | [ip, fp] =>
        if (ip ≠ [] ∨ fp ≠ []) ∧ ip.all Char.isDigit ∧ fp.all Char.isDigit then
          some (((digitsToNat ip).getD 0 : Rat)
                + ((digitsToNat fp).getD 0 : Rat) / ((10 : Rat) ^ fp.length))
        else Option.none
    | _ => Option.none
  match mag with
  | Option.none => Option.none
  | some q => some (if neg then -q else q)

/-- Python `float(v)` as used by the `float` field converters. -/
def pyFloatCoerce : PyVal → Except PyErr Rat
  | PyVal.vint n => Except.ok (n : Rat)
  | PyVal.vfloat q => Except.ok q
  | PyVal.vstr s =>
      match pyFloatOfString s with
      | some q => Except.ok q
      | Option.none => Except.error PyErr.valueError
  | _ => Except.error PyErr.typeError

/-- Gregorian leap-year test (as in `datetime`). -/
def isLeap (y : Nat) : Bool := y % 4 = 0 && (y % 100 ≠ 0 || y % 400 = 0)

/-- Number of days of month `m` in year `y` (as validated by `datetime.date`). -/
def daysInMonth (y m : Nat) : Nat :=
  if m = 2 then (if isLeap y then 29 else 28)
  else if m = 4 ∨ m = 6 ∨ m = 9 ∨ m = 11 then 30
  else 31

/-- A `datetime.date` value. -/
structure Date where
  year : Nat
  month : Nat
  day : Nat
deriving Repr, DecidableEq

/-- A `datetime.time` value; `tzUtc` records whether `tzinfo` is UTC. -/
structure Time where
  hour : Nat
  minute : Nat
  second : Nat
  tzUtc : Bool
deriving Repr, DecidableEq

/-- A 1- or 2-digit numeric field of a strptime pattern, with its maximal
admissible value (`%m`,`%d`,`%H`,`%M`,`%S` all accept one or two digits). -/
def parseField (l : List Char) (maxVal : Nat) : Option Nat :=
  if l.length = 0 ∨ 2 < l.length then Option.none
  else match digitsToNat l with
    | Option.none => Option.none
    | some n => if maxVal < n then Option.none else some n

/-- `datetime.strptime(s, "%Y-%m-%d").date()`: exactly four year digits, 1–2
month and day digits, everything consumed, and the day valid for the month
(`datetime` also requires year ≥ 1). -/
def strptimeYMD (s : String) : Option Date :=
  match splitOnChar '-' s.data with
  | [ys, ms, ds] =>
      if ys.length = 4 then
        match digitsToNat ys, parseField ms 12, parseField ds 31 with
        | some y, some m, some d =>
            if 1 ≤ y ∧ 1 ≤ m ∧ 1 ≤ d ∧ d ≤ daysInMonth y m then some ⟨y, m, d⟩
            else Option.none
        | _, _, _ => Option.none
      else Option.none
  | _ => Option.none

/-- `datetime.strptime(s, "%H:%M:%S").time()`: 1–2 digits per field, hour
at most 23, minute and second at most 59, everything consumed.  The result is
a naive time (`tzUtc := false`). -/
def strptimeHMS (s : String) : Option Time :=
  match splitOnChar ':' s.data with
  | [hs, ms, ss] =>
      match parseField hs 23, parseField ms 59, parseField ss 59 with
      | some h, some m, some sec => some ⟨h, m, sec, false⟩
      | _, _, _ => Option.none
  | _ => Option.none

/-- Python slicing `f[:-1]`: drop the final character (identity on `""`). -/
def pyDropLast (s : String) : String := String.mk s.data.dropLast

/-- `objects.to_date`: parse a `YYYY-MM-DD` string into a date. -/
def to_date (f : String) : Except PyErr Date :=
  match strptimeYMD f with
  | some d => Except.ok d
  | Option.none => Except.error PyErr.valueError

/-- `objects.to_time`: `strptime(f[:-1], "%H:%M:%S").time().replace(tzinfo=utc)`
— the final character is sliced off unconditionally and the remainder parsed
as `%H:%M:%S`; the result carries the UTC timezone. -/
def to_time (f : String) : Except PyErr Time :=
  match strptimeHMS (pyDropLast f) with
  | some t => Except.ok ⟨t.hour, t.minute, t.second, true⟩
  | Option.none => Except.error PyErr.valueError

/-- The `to_date` converter applied to a raw JSON value (`strptime` raises
`TypeError` on non-strings). -/
def to_dateVal : PyVal → Except PyErr Date
  | PyVal.vstr s => to_date s
  | _ => Except.error PyErr.typeError

/-- The `to_time` converter applied to a raw JSON value. -/
def to_timeVal : PyVal → Except PyErr Time
  | PyVal.vstr s => to_time s
  | _ => Except.error PyErr.typeError

/-! ### Typed record layer (`yukinator/objects.py`)

Each attrs class `X` becomes a structure plus `X.fromDict`, the model of
`X(**raw)`: the raw keys must be declared field names (unexpected keyword →
`TypeError`), required fields must be present, converters run field by field
and any converter failure aborts construction.  Fields declared without a
converter accept any raw value and are typed `PyVal`. -/

/-- Did the computation succeed? -/
def exOk : Except PyErr α → Bool
  | Except.ok _ => true
  | Except.error _ => false

/-- Binding of a required keyword argument (missing → `TypeError`). -/
def getReq (d : List (String × PyVal)) (k : String) : Except PyErr PyVal :=
  match dlookup d k with
  | some v => Except.ok v
  | Option.none => Except.error PyErr.typeError

/-- An optional field with a `converters.optional(conv)` converter: absent →
the `None` default; present `None` → `None`; otherwise run the converter. -/
def optConv (conv : PyVal → Except PyErr α) (d : List (String × PyVal)) (k : String) :
    Except PyErr (Option α) :=
  match dlookup d k with
  | Option.none => Except.ok Option.none
  | some PyVal.vnone => Except.ok Option.none
  | some v => (conv v).map some

/-- An optional field without a converter (default `None`). -/
def optPlain (d : List (String × PyVal)) (k : String) : PyVal :=
  (dlookup d k).getD PyVal.vnone

/-- Keyword check of `X(**raw)`: every raw key is a declared field name. -/
def keysOk (fields : List String) (d : List (String × PyVal)) : Bool :=
  d.all (fun kv => fields.contains kv.1)

/-- A Python list comprehension building one value per element, where any
element failure aborts the whole comprehension. -/
def exceptMap (f : α → Except PyErr β) : List α → Except PyErr (List β)
  | [] => Except.ok []
  | x :: rest => do
      let y ← f x
      let ys ← exceptMap f rest
      pure (y :: ys)

/-- `objects.DriverDTO`. -/
structure DriverDTO where
  driverId : PyVal
  url : PyVal
  givenName : PyVal
  familyName : PyVal
  dateOfBirth : Date
  nationality : PyVal
  permanentNumber : Option Int
  code : PyVal

def DriverDTO.fields : List String :=
  ["driverId", "url", "givenName", "familyName", "dateOfBirth", "nationality",
   "permanentNumber", "code"]

/-- `DriverDTO(**d)`. -/
def DriverDTO.fromDict (d : List (String × PyVal)) : Except PyErr DriverDTO := do
  if !keysOk DriverDTO.fields d then Except.error PyErr.typeError
  let driverId ← getReq d "driverId"
  let url ← getReq d "url"
  let givenName ← getReq d "givenName"
  let familyName ← getReq d "familyName"
  let dateOfBirth ← to_dateVal (← getReq d "dateOfBirth")
  let nationality ← getReq d "nationality"
  let permanentNumber ← optConv pyIntCoerce d "permanentNumber"
  let code := optPlain d "code"
  pure ⟨driverId, url, givenName, familyName, dateOfBirth, nationality,
        permanentNumber, code⟩

/-- `objects.to_driver_dto` applied to a raw value. -/
def to_driver_dtoVal : PyVal → Except PyErr DriverDTO
  | PyVal.vdict d => DriverDTO.fromDict d
  | _ => Except.error PyErr.typeError

/-- `objects.ConstructorDTO`. -/
structure ConstructorDTO where
  constructorId : PyVal
  url : PyVal
  name : PyVal
  nationality : PyVal

def ConstructorDTO.fields : List String :=
  ["constructorId", "url", "name", "nationality"]

/-- `ConstructorDTO(**d)`. -/
def ConstructorDTO.fromDict (d : List (String × PyVal)) : Except PyErr ConstructorDTO := do
  if !keysOk ConstructorDTO.fields d then Except.error PyErr.typeError
  let constructorId ← getReq d "constructorId"
  let url ← getReq d "url"
  let name ← getReq d "name"
  let nationality ← getReq d "nationality"
  pure ⟨constructorId, url, name, nationality⟩

/-- `objects.to_constructor_dto` applied to a raw value. -/
def to_constructor_dtoVal : PyVal → Except PyErr ConstructorDTO
  | PyVal.vdict d => ConstructorDTO.fromDict d
  | _ => Except.error PyErr.typeError

/-- `objects.to_constructors_dto_list` applied to a raw value. -/
def to_constructors_dto_listVal : PyVal → Except PyErr (List ConstructorDTO)
  | PyVal.vlist l => exceptMap to_constructor_dtoVal l
  | _ => Except.error PyErr.typeError

/-- `objects.LocationDTO` (`lat` and `long` carry the `float` converter). -/
structure LocationDTO where
  lat : Rat
  long : Rat
  locality : PyVal
  country : PyVal

def LocationDTO.fields : List String := ["lat", "long", "locality", "country"]

/-- `LocationDTO(**d)`. -/
def LocationDTO.fromDict (d : List (String × PyVal)) : Except PyErr LocationDTO := do
  if !keysOk LocationDTO.fields d then Except.error PyErr.typeError
  let lat ← pyFloatCoerce (← getReq d "lat")
  let long ← pyFloatCoerce (← getReq d "long")
  let locality ← getReq d "locality"
  let country ← getReq d "country"
  pure ⟨lat, long, locality, country⟩

/-- `objects.to_location_dto` applied to a raw value. -/
def to_location_dtoVal : PyVal → Except PyErr LocationDTO
  | PyVal.vdict d => LocationDTO.fromDict d
  | _ => Except.error PyErr.typeError

/-- `objects.CircuitDTO`. -/
structure CircuitDTO where
  circuitId : PyVal
  url : PyVal
  circuitName : PyVal
  Location : LocationDTO

def CircuitDTO.fields : List String :=
  ["circuitId", "url", "circuitName", "Location"]

/-- `CircuitDTO(**d)`. -/
def CircuitDTO.fromDict (d : List (String × PyVal)) : Except PyErr CircuitDTO := do
  if !keysOk CircuitDTO.fields d then Except.error PyErr.typeError
  let circuitId ← getReq d "circuitId"
  let url ← getReq d "url"
  let circuitName ← getReq d "circuitName"
  let location ← to_location_dtoVal (← getReq d "Location")
  pure ⟨circuitId, url, circuitName, location⟩

/-- `objects.to_circuit_dto` applied to a raw value. -/
def to_circuit_dtoVal : PyVal → Except PyErr CircuitDTO
  | PyVal.vdict d => CircuitDTO.fromDict d
  | _ => Except.error PyErr.typeError

/-- `objects.RaceDTO`: season/round carry `int` converters, `Circuit` the
nested-record converter, `date` the date converter, and eleven optional
date/time fields carry `converters.optional` date/time converters. -/
structure RaceDTO where
  season : Int
  round : Int
  url : PyVal
  raceName : PyVal
  Circuit : CircuitDTO
  date : Date
  time : Option Time
  firstpracticeDate : Option Date
  firstpracticeTime : Option Time
  secondpracticeDate : Option Date
  secondpracticeTime : Option Time
  thirdpracticeDate : Option Date
  thirdpracticeTime : Option Time
  qualifyingDate : Option Date
  qualifyingTime : Option Time
  sprintDate : Option Date
  sprintTime : Option Time

def RaceDTO.fields : List String :=
  ["season", "round", "url", "raceName", "Circuit", "date", "time",
   "firstpracticeDate", "firstpracticeTime", "secondpracticeDate",
   "secondpracticeTime", "thirdpracticeDate", "thirdpracticeTime",
   "qualifyingDate", "qualifyingTime", "sprintDate", "sprintTime"]

/-- `RaceDTO(**d)`. -/
def RaceDTO.fromDict (d : List (String × PyVal)) : Except PyErr RaceDTO := do
  if !keysOk RaceDTO.fields d then Except.error PyErr.typeError
  let season ← pyIntCoerce (← getReq d "season")
  let round ← pyIntCoerce (← getReq d "round")
  let url ← getReq d "url"
  let raceName ← getReq d "raceName"
  let circuit ← to_circuit_dtoVal (← getReq d "Circuit")
  let date ← to_dateVal (← getReq d "date")
  let time ← optConv to_timeVal d "time"
  let fpDate ← optConv to_dateVal d "firstpracticeDate"
  let fpTime ← optConv to_timeVal d "firstpracticeTime"
  let spDate ← optConv to_dateVal d "secondpracticeDate"
  let spTime ← optConv to_timeVal d "secondpracticeTime"
  let tpDate ← optConv to_dateVal d "thirdpracticeDate"
  let tpTime ← optConv to_timeVal d "thirdpracticeTime"
  let qDate ← optConv to_dateVal d "qualifyingDate"
  let qTime ← optConv to_timeVal d "qualifyingTime"
  let sprDate ← optConv to_dateVal d "sprintDate"
  let sprTime ← optConv to_timeVal d "sprintTime"
  pure ⟨season, round, url, raceName, circuit, date, time, fpDate, fpTime,
        spDate, spTime, tpDate, tpTime, qDate, qTime, sprDate, sprTime⟩

/-- `objects.DriverStandingDTO`: `points` and — despite the `int` annotation —
`wins` carry the `float` converter; `Constructors` is a list of nested
constructor records. -/
structure DriverStandingDTO where
  Driver : DriverDTO
  position : Int
  positionText : PyVal
  points : Rat
  wins : Rat
  Constructors : List ConstructorDTO

def DriverStandingDTO.fields : List String :=
  ["Driver", "position", "positionText", "points", "wins", "Constructors"]

/-- `DriverStandingDTO(**d)`. -/
def DriverStandingDTO.fromDict (d : List (String × PyVal)) :
    Except PyErr DriverStandingDTO := do
  if !keysOk DriverStandingDTO.fields d then Except.error PyErr.typeError
  let driver ← to_driver_dtoVal (← getReq d "Driver")
  let position ← pyIntCoerce (← getReq d "position")
  let positionText ← getReq d "positionText"
  let points ← pyFloatCoerce (← getReq d "points")
  let wins ← pyFloatCoerce (← getReq d "wins")
  let constructors ← to_constructors_dto_listVal (← getReq d "Constructors")
  pure ⟨driver, position, positionText, points, wins, constructors⟩

/-- `objects.ConstructorStandingDTO`: here `wins` carries the `int` converter. -/
structure ConstructorStandingDTO where
  Constructor : ConstructorDTO
  position : Int
  positionText : PyVal
  points : Rat
  wins : Int

def ConstructorStandingDTO.fields : List String :=
  ["Constructor", "position", "positionText", "points", "wins"]

/-- `ConstructorStandingDTO(**d)`. -/
def ConstructorStandingDTO.fromDict (d : List (String × PyVal)) :
    Except PyErr ConstructorStandingDTO := do
  if !keysOk ConstructorStandingDTO.fields d then Except.error PyErr.typeError
  let constructor ← to_constructor_dtoVal (← getReq d "Constructor")
  let position ← pyIntCoerce (← getReq d "position")
  let positionText ← getReq d "positionText"
  let points ← pyFloatCoerce (← getReq d "points")
  let wins ← pyIntCoerce (← getReq d "wins")
  pure ⟨constructor, position, positionText, points, wins⟩

/-! ### Dictionary conversions (`DTO.to_dict` / `DTO.to_flat_dict`)

`attrs.asdict` recurses into nested attrs instances (field names as keys, in
declaration order) and leaves `datetime` values as they are; `to_flat_dict`
then passes the result through `flat_dict` with no key restriction. -/

def dateToVal (d : Date) : PyVal := PyVal.vdate d.year d.month d.day

def timeToVal (t : Time) : PyVal := PyVal.vtime t.hour t.minute t.second

def optDateToVal : Option Date → PyVal
  | Option.none => PyVal.vnone
  | some d => dateToVal d

def optTimeToVal : Option Time → PyVal
  | Option.none => PyVal.vnone
  | some t => timeToVal t

/-- `asdict` of a `LocationDTO`, as a value. -/
def LocationDTO.toDictVal (l : LocationDTO) : PyVal :=
  PyVal.vdict [("lat", PyVal.vfloat l.lat), ("long", PyVal.vfloat l.long),
               ("locality", l.locality), ("country", l.country)]

/-- `asdict` of a `CircuitDTO`, as a value. -/
def CircuitDTO.toDictVal (c : CircuitDTO) : PyVal :=
  PyVal.vdict [("circuitId", c.circuitId), ("url", c.url),
               ("circuitName", c.circuitName), ("Location", c.Location.toDictVal)]

/-- `RaceDTO.to_dict` (= `attrs.asdict`). -/
def RaceDTO.to_dict (r : RaceDTO) : List (String × PyVal) :=
  [("season", PyVal.vint r.season), ("round", PyVal.vint r.round),
   ("url", r.url), ("raceName", r.raceName),
   ("Circuit", r.Circuit.toDictVal), ("date", dateToVal r.date),
   ("time", optTimeToVal r.time),
   ("firstpracticeDate", optDateToVal r.firstpracticeDate),
   ("firstpracticeTime", optTimeToVal r.firstpracticeTime),
   ("secondpracticeDate", optDateToVal r.secondpracticeDate),
   ("secondpracticeTime", optTimeToVal r.secondpracticeTime),
   ("thirdpracticeDate", optDateToVal r.thirdpracticeDate),
   ("thirdpracticeTime", optTimeToVal r.thirdpracticeTime),
   ("qualifyingDate", optDateToVal r.qualifyingDate),
   ("qualifyingTime", optTimeToVal r.qualifyingTime),
   ("sprintDate", optDateToVal r.sprintDate),
   ("sprintTime", optTimeToVal r.sprintTime)]

/-- `RaceDTO.to_flat_dict` (= `flat_dict(asdict(self))`). -/
def RaceDTO.to_flat_dict (r : RaceDTO) : List (String × PyVal) :=
  flat_dict r.to_dict Option.none

/-! ### Client facade (`yukinator/yukinator.py`)

URL segments are the `Union[int, str, None]` arguments of the getters.  The
HTTP transport is a collaborator: a request is modelled by the status code
and already-parsed JSON body the transport would return. -/

/-- A positional URL segment (`Union[int, str, None]`). -/
inductive Seg where
  | num : Int → Seg
  | str : String → Seg
  | null : Seg
deriving Repr, DecidableEq

/-- Python truthiness of a segment (the `if suffix` filter in `_build_url`):
`None`, the empty string and the integer 0 are falsy. -/
def Seg.truthy : Seg → Bool
  | Seg.num n => n ≠ 0
  | Seg.str s => s ≠ ""
  | Seg.null => false

/-- Python `str(suffix)`. -/
def Seg.toStr : Seg → String
  | Seg.num n => toString n
  | Seg.str s => s
  | Seg.null => "None"

/-- `Yuki._base_url`. -/
def base_url : String := "https://api.jolpi.ca/ergast/f1/"

/-- `Yuki._build_url(*endpoints)`: base URL, the truthy segments stringified
and joined by `/`, then the fixed `.json?limit=1000` suffix. -/
def build_url (endpoints : List Seg) : String :=
  base_url
    ++ String.intercalate "/" ((endpoints.filter Seg.truthy).map Seg.toStr)
    ++ ".json?limit=1000"

/-- The URL builder as claim C3 words it: only `None` and empty segments are
omitted (all other segments, including the integer 0, are kept).  Stated from
the spec for comparison with `build_url`. -/
def claimBuildUrl (endpoints : List Seg) : String :=
  base_url
    ++ String.intercalate "/"
        ((endpoints.filter (fun v => decide (v ≠ Seg.null ∧ v ≠ Seg.str ""))).map Seg.toStr)
    ++ ".json?limit=1000"

/-- Subscription `v[k]` (`KeyError` when missing, `TypeError` on non-dicts). -/
def getItem (v : PyVal) (k : String) : Except PyErr PyVal :=
  match v with
  | PyVal.vdict d =>
      match dlookup d k with
      | some x => Except.ok x
      | Option.none => Except.error (PyErr.keyError k)
  | _ => Except.error PyErr.typeError

def asDictE : PyVal → Except PyErr (List (String × PyVal))
  | PyVal.vdict d => Except.ok d
  | _ => Except.error PyErr.typeError

def asListE : PyVal → Except PyErr (List PyVal)
  | PyVal.vlist l => Except.ok l
  | _ => Except.error PyErr.typeError

/-- `Yuki._make_request`, given the transport's response for the URL: raise
`HTTPError` when the status is not below 400; otherwise inspect the parsed
body and raise `WrongQueryParameters` when `int(body["MRData"]["total"])` is
at most 0; otherwise return the body. -/
def make_request (status : Nat) (body : PyVal) : Except PyErr PyVal := do
  if ¬ status < 400 then Except.error (PyErr.httpError status)
  let mr ← getItem body "MRData"
  let total ← getItem mr "total"
  let t ← pyIntCoerce total
  if t ≤ 0 then Except.error PyErr.wrongQueryParameters
  pure body

/-- `Yuki.get_drivers`, given the transport response: request, drill into
`MRData → DriverTable → Drivers` and build one `DriverDTO` per item. -/
def get_drivers (year race : Seg) (status : Nat) (body : PyVal) :
    Except PyErr (List DriverDTO) := do
  let _url := build_url [year, race, Seg.str "drivers"]
  let response ← make_request status body
  let t1 ← getItem response "MRData"
  let t2 ← getItem t1 "DriverTable"
  let t3 ← getItem t2 "Drivers"
  let items ← asListE t3
  exceptMap (fun x => do DriverDTO.fromDict (← asDictE x)) items

/-- The restriction list `get_races` passes to `flat_dict`. -/
def raceKeys : List String :=
  ["FirstPractice", "SecondPractice", "ThirdPractice", "Qualifying", "Sprint"]

/-- The per-item body of `Yuki.get_races`: flatten the raw race item with the
`raceKeys` restriction, then construct the `RaceDTO`. -/
def race_from_item (x : List (String × PyVal)) : Except PyErr RaceDTO :=
  RaceDTO.fromDict (flat_dict x (some raceKeys))

/-- `Yuki.get_races`, given the transport response. -/
def get_races (year race : Seg) (status : Nat) (body : PyVal) :
    Except PyErr (List RaceDTO) := do
  let _url := build_url [year, race]
  let response ← make_request status body
  let t1 ← getItem response "MRData"
  let t2 ← getItem t1 "RaceTable"
  let t3 ← getItem t2 "Races"
  let items ← asListE t3
  exceptMap (fun x => do race_from_item (← asDictE x)) items

/-- The URL `Yuki.get_drivers_standings` actually requests: the `winners`
branch binds a winners URL that the following unconditional assignment
immediately overwrites, so the year/race URL is used in both cases. -/
def get_drivers_standings_url (year race : Seg) (winners : Bool) : String :=
  let _discarded :=
    if winners then some (build_url [Seg.str "driverStandings", Seg.str "1"])
    else Option.none
  build_url [year, race, Seg.str "driverStandings"]

/-- The URL `Yuki.get_constructors_standings` actually requests (same
overwrite as in `get_drivers_standings`). -/
def get_constructors_standings_url (year race : Seg) (winners : Bool) : String :=
  let _discarded :=
    if winners then some (build_url [Seg.str "constructorStandings", Seg.str "1"])
    else Option.none
  build_url [year, race, Seg.str "constructorStandings"]

/-! ### Claim C2 — the `winners` flag never changes the requested URL -/

/-- C2: the claim says a standings getter called with `winners = True`
requests the fixed `page 1 of a single category` URL.  In the code the
`winners` branch's URL is discarded by the following unconditional
assignment, so the year/race URL is requested instead: the claim describes
the documented intent, the code drops the computed winners URL. -/
theorem c2_winners_url_overwritten :
    get_drivers_standings_url (Seg.str "current") Seg.null true
        = build_url [Seg.str "current", Seg.null, Seg.str "driverStandings"] ∧
    get_drivers_standings_url (Seg.str "current") Seg.null true
        ≠ build_url [Seg.str "driverStandings", Seg.str "1"] ∧
    get_constructors_standings_url (Seg.str "current") Seg.null true
        = build_url [Seg.str "current", Seg.null, Seg.str "constructorStandings"] ∧
    get_constructors_standings_url (Seg.str "current") Seg.null true
        ≠ build_url [Seg.str "constructorStandings", Seg.str "1"] :=
  ⟨rfl, by decide, rfl, by decide⟩

/-! ### Claim C3 — which segments does `_build_url` drop? -/

/-- C3 counterexample: the integer segment 0 is neither `None` nor empty,
yet `_build_url` omits it (Python truthiness filtering), so the URL differs
from the one the claim prescribes. -/
theorem c3_counterexample :
    Seg.num 0 ≠ Seg.null ∧ Seg.num 0 ≠ Seg.str "" ∧
    build_url [Seg.num 0, Seg.str "drivers"]
      = "https://api.jolpi.ca/ergast/f1/drivers.json?limit=1000" ∧
    claimBuildUrl [Seg.num 0, Seg.str "drivers"]
      = "https://api.jolpi.ca/ergast/f1/0/drivers.json?limit=1000" ∧
    build_url [Seg.num 0, Seg.str "drivers"] ≠ claimBuildUrl [Seg.num 0, Seg.str "drivers"] :=
  ⟨by decide, by decide, rfl, rfl, by decide⟩

/-- C3 amended: `_build_url` keeps exactly the truthy segments — on segment
lists free of the integer 0 this is exactly the claim's `drop only null/empty`
rule — joined by `/` between the fixed base and the fixed
`.json?limit=1000` suffix; the claim's two worked examples hold. -/
theorem c3_build_url_amended (l : List Seg) (h : ∀ v ∈ l, v ≠ Seg.num 0) :
    build_url l = claimBuildUrl l ∧
    build_url [Seg.num 2022, Seg.num 4, Seg.str "qualifying"]
      = base_url ++ "2022/4/qualifying.json?limit=1000" ∧
    build_url [Seg.num 2001, Seg.null, Seg.str "drivers"]
      = base_url ++ "2001/drivers.json?limit=1000" := by
  refine ⟨?_, rfl, rfl⟩
  unfold build_url claimBuildUrl
  have hf : l.filter Seg.truthy
      = l.filter (fun v => decide (v ≠ Seg.null ∧ v ≠ Seg.str "")) := by
    refine List.filter_congr ?_
    intro v hv
    have hx : v ≠ Seg.num 0 := h v hv
    cases v with
    | num n =>
        have hn : ¬ n = 0 := fun hn0 => hx (by rw [hn0])
        simp [Seg.truthy, hn]
    | str s =>
        by_cases hs : s = ""
        · subst hs; simp [Seg.truthy]
        · simp [Seg.truthy, hs]
    | null => simp [Seg.truthy]
  rw [hf]

/-- C3 witness: the amended equation at a 0-free segment list, and the two
worked examples. -/
theorem c3_build_url_amended_witness :
    build_url [Seg.num 2001, Seg.null, Seg.str "drivers"]
      = claimBuildUrl [Seg.num 2001, Seg.null, Seg.str "drivers"] ∧
    build_url [Seg.num 2022, Seg.num 4, Seg.str "qualifying"]
      = base_url ++ "2022/4/qualifying.json?limit=1000" :=
  ⟨(c3_build_url_amended [Seg.num 2001, Seg.null, Seg.str "drivers"] (by decide)).1,
   (c3_build_url_amended [] (by decide)).2.1⟩

/-! ### Claim C5 — the synthesized flattener keys -/

/-- The synthesized-key rule as claim C5 words it: the parent key with only
its first character lower-cased (remaining characters unchanged) followed by
the child key with only its first character upper-cased (remaining
characters unchanged).  Stated from the spec for comparison with the code's
`parent_key.lower() + k.capitalize()`. -/
def claimSynthKey (p c : String) : String :=
  (match p.data with
   | [] => ""
   | a :: rest => String.mk (Char.toLower a :: rest))
  ++ (match c.data with
      | [] => ""
      | a :: rest => String.mk (Char.toUpper a :: rest))

/-- C5 counterexample: descending from parent key `FirstPractice` into child
key `dateTime`, the code synthesizes `firstpracticeDatetime` (whole parent
lower-cased, tail of the child lower-cased too), not the claim's
`firstPracticeDateTime`. -/
theorem c5_counterexample :
    flat_dict [("FirstPractice", PyVal.vdict [("dateTime", PyVal.vstr "x")])] Option.none
      = [("firstpracticeDatetime", PyVal.vstr "x")] ∧
    claimSynthKey "FirstPractice" "dateTime" = "firstPracticeDateTime" ∧
    ("firstpracticeDatetime" : String) ≠ "firstPracticeDateTime" := by
  refine ⟨?_, by decide, by decide⟩
  simp [flat_dict, flattenGen, dictOf, dictInsert, keysTruthy, pyLower, pyCapitalize]

/-- C5 amended: for an entry the flattener descends into, the synthesized key
is the accumulated parent key with **all** characters lower-cased followed by
the child key capitalized Python-style (first character upper-cased, all
remaining characters lower-cased). -/
theorem c5_flatten_key_amended (p c : String) (v : PyVal) (hp : p ≠ "")
    (hv : v.isDictB = false) :
    flat_dict [(p, PyVal.vdict [(c, v)])] Option.none
      = [(pyLower p ++ pyCapitalize c, v)] := by
  cases v with
  | vdict entries => simp [PyVal.isDictB] at hv
  | vstr s => simp [flat_dict, flattenGen, dictOf, dictInsert, keysTruthy, hp]
  | vint n => simp [flat_dict, flattenGen, dictOf, dictInsert, keysTruthy, hp]
  | vfloat q => simp [flat_dict, flattenGen, dictOf, dictInsert, keysTruthy, hp]
  | vnone => simp [flat_dict, flattenGen, dictOf, dictInsert, keysTruthy, hp]
  | vdate y m d => simp [flat_dict, flattenGen, dictOf, dictInsert, keysTruthy, hp]
  | vtime h m s => simp [flat_dict, flattenGen, dictOf, dictInsert, keysTruthy, hp]
  | vlist l => simp [flat_dict, flattenGen, dictOf, dictInsert, keysTruthy, hp]

/-- C5 witness: the amended key rule at the counterexample's input. -/
theorem c5_flatten_key_amended_witness :
    flat_dict [("FirstPractice", PyVal.vdict [("dateTime", PyVal.vstr "x")])] Option.none
      = [(pyLower "FirstPractice" ++ pyCapitalize "dateTime", PyVal.vstr "x")] :=
  c5_flatten_key_amended "FirstPractice" "dateTime" (PyVal.vstr "x") (by decide) rfl

/-! ### Claim C6 — `to_time` and the trailing character -/

/-- C6 counterexample: `to_time` succeeds on `"11:00:00X"` although the
trailing character is not `Z` — the source slices the final character off
with `f[:-1]` without ever checking it. -/
theorem c6_counterexample :
    "11:00:00X".data.getLast? = some 'X' ∧ ('X' : Char) ≠ 'Z' ∧
    to_time "11:00:00X" = Except.ok ⟨11, 0, 0, true⟩ :=
  ⟨by decide, by decide, rfl⟩

/-- Auxiliary: Python's `f[:-1]` undoes appending one character. -/
theorem pyDropLast_push (s : String) (c : Char) : pyDropLast (s.push c) = s := by
  cases s with
  | mk l =>
      show String.mk ((l ++ [c]).dropLast) = String.mk l
      rw [List.dropLast_concat]

/-- C6 amended: `to_time` discards the final character unchecked (any two
inputs differing only in their last character parse identically), succeeds
exactly when the remaining prefix parses under `%H:%M:%S`, and every
successful parse carries the UTC timezone. -/
theorem c6_to_time_amended :
    (∀ (s : String) (c₁ c₂ : Char), to_time (s.push c₁) = to_time (s.push c₂)) ∧
    (∀ (s : String), exOk (to_time s) = (strptimeHMS (pyDropLast s)).isSome) ∧
    (∀ (s : String) (t : Time), to_time s = Except.ok t → t.tzUtc = true) := by
  refine ⟨?_, ?_, ?_⟩
  · intro s c₁ c₂
    rw [to_time, to_time, pyDropLast_push, pyDropLast_push]
  · intro s
    rw [to_time]
    cases strptimeHMS (pyDropLast s) with
    | none => rfl
    | some t => rfl
  · intro s t h
    rw [to_time] at h
    cases hs : strptimeHMS (pyDropLast s) with
    | none => rw [hs] at h; exact absurd h (by simp)
    | some t₀ =>
        rw [hs] at h
        cases h
        rfl

/-- C6 witness: the amended statement at `"11:30:00"` with trailing `X`
versus `Z`, and the UTC flag of the parse of `"11:30:00Z"`. -/
theorem c6_to_time_amended_witness :
    to_time ("11:30:00".push 'X') = to_time ("11:30:00".push 'Z') ∧
    Time.tzUtc ⟨11, 30, 0, true⟩ = true :=
  ⟨c6_to_time_amended.1 "11:30:00" 'X' 'Z',
   c6_to_time_amended.2.2 "11:30:00Z" ⟨11, 30, 0, true⟩ rfl⟩

/-! ### Claims C8 and C9 — algebra of the flattener -/

/-- When the restriction argument is falsy (`None` or the empty list) it is
never consulted, so any two falsy restriction arguments flatten alike. -/
theorem flattenGen_falsy (k₁ k₂ : Option (List String)) (h₁ : keysTruthy k₁ = false)
    (h₂ : keysTruthy k₂ = false) (l : List (String × PyVal)) (pk : String) :
    flattenGen k₁ l pk = flattenGen k₂ l pk := by
  induction l, pk using flattenGen.induct k₁ with
  | case1 pk => simp [flattenGen]
  | case2 pk k v rest nk hm ih =>
      cases v with
      | vdict entries =>
          have he : flattenGen k₁ entries (if pk ≠ "" then pyLower pk ++ pyCapitalize k else k)
              = flattenGen k₂ entries (if pk ≠ "" then pyLower pk ++ pyCapitalize k else k) := hm.1
          simp only [flattenGen, h₁, h₂, Bool.false_eq_true, if_false, ih, he]
      | vstr s => simp only [flattenGen, ih]
      | vint n => simp only [flattenGen, ih]
      | vfloat q => simp only [flattenGen, ih]
      | vnone => simp only [flattenGen, ih]
      | vdate a b c => simp only [flattenGen, ih]
      | vtime a b c => simp only [flattenGen, ih]
      | vlist xs => simp only [flattenGen, ih]

/-- The key sequence of a dict. -/
def dkeys (l : List (String × PyVal)) : List String := l.map Prod.fst

/-- Inserting a fresh key appends the pair. -/
theorem dictInsert_of_not_mem (d : List (String × PyVal)) (k : String) (v : PyVal)
    (h : k ∉ dkeys d) : dictInsert d k v = d ++ [(k, v)] := by
  induction d with
  | nil => rfl
  | cons kv rest ih =>
      obtain ⟨k₁, v₁⟩ := kv
      have hk : k₁ ≠ k := by
        intro he; exact h (by simp [dkeys, he])
      have hr : k ∉ dkeys rest := fun hm => h (by simp [dkeys] at hm ⊢; exact Or.inr hm)
      simp [dictInsert, hk, ih hr]

/-- Keys after an insertion: unchanged for an existing key, appended for a
fresh one. -/
theorem dkeys_dictInsert (d : List (String × PyVal)) (k : String) (v : PyVal) :
    dkeys (dictInsert d k v) = if k ∈ dkeys d then dkeys d else dkeys d ++ [k] := by
  induction d with
  | nil => simp [dictInsert, dkeys]
  | cons kv rest ih =>
      obtain ⟨k₁, v₁⟩ := kv
      by_cases hk : k₁ = k
      · subst hk
        simp [dictInsert, dkeys]
      · have hk2 : ¬ (k = k₁) := fun he => hk he.symm
        by_cases hm : k ∈ dkeys rest
        all_goals
          simp only [dkeys] at ih hm ⊢
          simp [dictInsert, hk, List.mem_cons, hk2, hm] at ih ⊢
          simp [ih]

/-- Insertion preserves key distinctness. -/
theorem nodup_dictInsert (d : List (String × PyVal)) (k : String) (v : PyVal)
    (h : (dkeys d).Nodup) : (dkeys (dictInsert d k v)).Nodup := by
  rw [dkeys_dictInsert]
  by_cases hm : k ∈ dkeys d
  · simpa [hm] using h
  · simp [hm, List.nodup_append, h]

/-- Folding insertions preserves key distinctness. -/
theorem foldl_dictInsert_nodup (l : List (String × PyVal)) :
    ∀ acc, (dkeys acc).Nodup →
      (dkeys (l.foldl (fun d kv => dictInsert d kv.1 kv.2) acc)).Nodup := by
  induction l with
  | nil => intro acc h; simpa using h
  | cons kv rest ih =>
      intro acc h
      exact ih (dictInsert acc kv.1 kv.2) (nodup_dictInsert acc kv.1 kv.2 h)

/-- A dict built by `dictOf` has pairwise distinct keys. -/
theorem dictOf_keys_nodup (l : List (String × PyVal)) : (dkeys (dictOf l)).Nodup :=
  foldl_dictInsert_nodup l [] (by simp [dkeys])

/-- Inserting pairwise-fresh pairs just appends them. -/
theorem foldl_dictInsert_eq_append (l : List (String × PyVal)) :
    ∀ acc, (dkeys (acc ++ l)).Nodup →
      l.foldl (fun d kv => dictInsert d kv.1 kv.2) acc = acc ++ l := by
  induction l with
  | nil => intro acc h; simp
  | cons kv rest ih =>
      intro acc h
      obtain ⟨k, v⟩ := kv
      have hnotin : k ∉ dkeys acc := by
        intro hmem
        have h2 : (dkeys acc ++ k :: dkeys rest).Nodup := by simpa [dkeys] using h
        rw [List.nodup_append] at h2
        exact (h2.2.2 hmem) (List.mem_cons_self _ _)
      have hstep : dictInsert acc k v = acc ++ [(k, v)] :=
        dictInsert_of_not_mem acc k v hnotin
      have hre : dkeys ((acc ++ [(k, v)]) ++ rest) = dkeys (acc ++ (k, v) :: rest) := by
        simp [dkeys]
      simp only [List.foldl_cons, hstep]
      rw [ih (acc ++ [(k, v)]) (by rw [hre]; exact h)]
      simp

/-- `dict(l)` is the identity on association lists with distinct keys. -/
theorem dictOf_self (l : List (String × PyVal)) (h : (dkeys l).Nodup) : dictOf l = l := by
  have := foldl_dictInsert_eq_append l [] (by simpa [dkeys] using h)
  simpa [dictOf] using this

/-- Every pair of an insertion result comes from the dict or is the
inserted pair. -/
theorem mem_dictInsert (d : List (String × PyVal)) (k : String) (v : PyVal) (x : String × PyVal)
    (hx : x ∈ dictInsert d k v) : x ∈ d ∨ x = (k, v) := by
  induction d with
  | nil => simpa [dictInsert] using hx
  | cons kv rest ih =>
      obtain ⟨k₁, v₁⟩ := kv
      by_cases hk : k₁ = k
      · subst hk
        simp [dictInsert] at hx
        rcases hx with h | h
        · exact Or.inr (by rw [h])
        · exact Or.inl (List.mem_cons_of_mem _ h)
      · simp [dictInsert, hk] at hx
        rcases hx with h | h
        · exact Or.inl (by simp [h])
        · rcases ih h with h2 | h2
          · exact Or.inl (List.mem_cons_of_mem _ h2)
          · exact Or.inr h2

/-- Every pair of a fold of insertions comes from the accumulator or the
inserted list. -/
theorem mem_foldl_dictInsert (l : List (String × PyVal)) :
    ∀ acc x, x ∈ l.foldl (fun d kv => dictInsert d kv.1 kv.2) acc → x ∈ acc ∨ x ∈ l := by
  induction l with
  | nil => intro acc x hx; exact Or.inl (by simpa using hx)
  | cons kv rest ih =>
      intro acc x hx
      rcases ih (dictInsert acc kv.1 kv.2) x hx with h | h
      · rcases mem_dictInsert acc kv.1 kv.2 x h with h2 | h2
        · exact Or.inl h2
        · exact Or.inr (by simp [h2])
      · exact Or.inr (List.mem_cons_of_mem _ h)

/-- Every pair of `dictOf l` occurs in `l`. -/
theorem mem_dictOf (l : List (String × PyVal)) (x : String × PyVal)
    (hx : x ∈ dictOf l) : x ∈ l := by
  rcases mem_foldl_dictInsert l [] x hx with h | h
  · simp at h
  · exact h

/-- With a falsy restriction the flattener descends into every nested
mapping, so no produced value is a mapping. -/
theorem flattenGen_falsy_values (keys : Option (List String)) (hk : keysTruthy keys = false)
    (l : List (String × PyVal)) (pk : String) :
    ∀ x ∈ flattenGen keys l pk, x.2.isDictB = false := by
  induction l, pk using flattenGen.induct keys with
  | case1 pk => simp [flattenGen]
  | case2 pk k v rest nk hm ih =>
      cases v with
      | vdict entries =>
          have he : ∀ x ∈ flattenGen keys entries
              (if pk ≠ "" then pyLower pk ++ pyCapitalize k else k), x.2.isDictB = false :=
            hm.1
          intro x hx
          simp only [flattenGen, hk, Bool.false_eq_true, if_false, List.mem_append] at hx
          rcases hx with hx | hx
          · exact he x (mem_dictOf _ x hx)
          · exact ih x hx
      | vstr s =>
          intro x hx
          simp only [flattenGen, List.singleton_append, List.mem_cons] at hx
          rcases hx with hx | hx
          · rw [hx]; rfl
          · exact ih x hx
      | vint n =>
          intro x hx
          simp only [flattenGen, List.singleton_append, List.mem_cons] at hx
          rcases hx with hx | hx
          · rw [hx]; rfl
          · exact ih x hx
      | vfloat q =>
          intro x hx
          simp only [flattenGen, List.singleton_append, List.mem_cons] at hx
          rcases hx with hx | hx
          · rw [hx]; rfl
          · exact ih x hx
      | vnone =>
          intro x hx
          simp only [flattenGen, List.singleton_append, List.mem_cons] at hx
          rcases hx with hx | hx
          · rw [hx]; rfl
          · exact ih x hx
      | vdate a b c =>
          intro x hx
          simp only [flattenGen, List.singleton_append, List.mem_cons] at hx
          rcases hx with hx | hx
          · rw [hx]; rfl
          · exact ih x hx
      | vtime a b c =>
          intro x hx
          simp only [flattenGen, List.singleton_append, List.mem_cons] at hx
          rcases hx with hx | hx
          · rw [hx]; rfl
          · exact ih x hx
      | vlist xs =>
          intro x hx
          simp only [flattenGen, List.singleton_append, List.mem_cons] at hx
          rcases hx with hx | hx
          · rw [hx]; rfl
          · exact ih x hx

/-- On a mapping without nested mappings the generator reproduces the
entries unchanged (top-level keys are not prefixed). -/
theorem flattenGen_id (keys : Option (List String)) (l : List (String × PyVal))
    (h : ∀ x ∈ l, x.2.isDictB = false) : flattenGen keys l "" = l := by
  induction l with
  | nil => simp [flattenGen]
  | cons kv rest ih =>
      obtain ⟨k, v⟩ := kv
      have hv : v.isDictB = false := h (k, v) (List.mem_cons_self _ _)
      have hrest : ∀ x ∈ rest, x.2.isDictB = false :=
        fun x hx => h x (List.mem_cons_of_mem _ hx)
      cases v with
      | vdict entries => simp [PyVal.isDictB] at hv
      | vstr s => simp [flattenGen, ih hrest]
      | vint n => simp [flattenGen, ih hrest]
      | vfloat q => simp [flattenGen, ih hrest]
      | vnone => simp [flattenGen, ih hrest]
      | vdate a b c => simp [flattenGen, ih hrest]
      | vtime a b c => simp [flattenGen, ih hrest]
      | vlist xs => simp [flattenGen, ih hrest]

/-- C8: flattening with no restriction is idempotent — one unrestricted pass
leaves no nested mappings, and re-flattening such a single-level dict
reproduces it exactly. -/
theorem c8_flat_dict_idempotent (d : List (String × PyVal)) :
    flat_dict (flat_dict d Option.none) Option.none = flat_dict d Option.none := by
  unfold flat_dict
  have hvals : ∀ x ∈ dictOf (flattenGen Option.none d ""), x.2.isDictB = false :=
    fun x hx => flattenGen_falsy_values Option.none rfl d "" x (mem_dictOf _ x hx)
  rw [flattenGen_id Option.none _ hvals]
  exact dictOf_self _ (dictOf_keys_nodup _)

/-- C9: an empty restriction list behaves exactly like no restriction list —
`if keys:` is falsy for both, so full recursive flattening runs. -/
theorem c9_flat_dict_empty_keys (d : List (String × PyVal)) :
    flat_dict d (some []) = flat_dict d Option.none := by
  unfold flat_dict
  rw [flattenGen_falsy (some []) Option.none rfl rfl]

/-! ### Claims C7 and C10 — field coercion at construction time -/

/-- Inversion of a successful monadic bind over `Except`. -/
theorem exBind_ok {α β : Type} {x : Except PyErr α} {f : α → Except PyErr β} {b : β}
    (h : x >>= f = Except.ok b) : ∃ a, x = Except.ok a ∧ f a = Except.ok b := by
  cases x with
  | error e => exact absurd h (by simp [Bind.bind, Except.bind])
  | ok a => exact ⟨a, rfl, by simpa [Bind.bind, Except.bind] using h⟩

/-- A successful `DriverStandingDTO` construction obtained its `wins` field
through the `float` coercion of the raw `wins` value. -/
theorem c10_driver_part (d : List (String × PyVal)) (v : PyVal) (r : DriverStandingDTO)
    (hl : dlookup d "wins" = some v) (hok : DriverStandingDTO.fromDict d = Except.ok r) :
    pyFloatCoerce v = Except.ok r.wins := by
  unfold DriverStandingDTO.fromDict at hok
  split at hok
  · exact absurd hok (by simp [Bind.bind, Except.bind])
  · obtain ⟨u0, hu0, hok⟩ := exBind_ok hok
    obtain ⟨b1, h1, hok⟩ := exBind_ok hok
    obtain ⟨b2, h2, hok⟩ := exBind_ok hok
    obtain ⟨b3, h3, hok⟩ := exBind_ok hok
    obtain ⟨b4, h4, hok⟩ := exBind_ok hok
    obtain ⟨b5, h5, hok⟩ := exBind_ok hok
    obtain ⟨b6, h6, hok⟩ := exBind_ok hok
    obtain ⟨b7, h7, hok⟩ := exBind_ok hok
    obtain ⟨b8, h8, hok⟩ := exBind_ok hok
    obtain ⟨b9, h9, hok⟩ := exBind_ok hok
    obtain ⟨b10, h10, hok⟩ := exBind_ok hok
    obtain ⟨b11, h11, hok⟩ := exBind_ok hok
    have hv : b8 = v := by
      have hx : getReq d "wins" = Except.ok b8 := h8
      rw [getReq, hl] at hx
      exact (by simpa using hx : v = b8).symm
    have hr : r = ⟨b2, b4, b5, b7, b9, b11⟩ := by
      simpa [pure, Except.pure] using hok.symm
    rw [hr]
    rw [hv] at h9
    exact h9

/-- A successful `ConstructorStandingDTO` construction obtained its `wins`
field through the `int` coercion of the raw `wins` value. -/
theorem c10_ctor_part (d : List (String × PyVal)) (v : PyVal) (r : ConstructorStandingDTO)
    (hl : dlookup d "wins" = some v) (hok : ConstructorStandingDTO.fromDict d = Except.ok r) :
    pyIntCoerce v = Except.ok r.wins := by
  unfold ConstructorStandingDTO.fromDict at hok
  split at hok
  · exact absurd hok (by simp [Bind.bind, Except.bind])
  · obtain ⟨u0, hu0, hok⟩ := exBind_ok hok
    obtain ⟨b1, h1, hok⟩ := exBind_ok hok
    obtain ⟨b2, h2, hok⟩ := exBind_ok hok
    obtain ⟨b3, h3, hok⟩ := exBind_ok hok
    obtain ⟨b4, h4, hok⟩ := exBind_ok hok
    obtain ⟨b5, h5, hok⟩ := exBind_ok hok
    obtain ⟨b6, h6, hok⟩ := exBind_ok hok
    obtain ⟨b7, h7, hok⟩ := exBind_ok hok
    obtain ⟨b8, h8, hok⟩ := exBind_ok hok
    obtain ⟨b9, h9, hok⟩ := exBind_ok hok
    have hv : b8 = v := by
      have hx : getReq d "wins" = Except.ok b8 := h8
      rw [getReq, hl] at hx
      exact (by simpa using hx : v = b8).symm
    have hr : r = ⟨b2, b4, b5, b7, b9⟩ := by
      simpa [pure, Except.pure] using hok.symm
    rw [hr]
    rw [hv] at h9
    exact h9

/-- C10: the driver-standing record coerces `wins` with `float` (the field
holds a floating-point value), while the constructor-standing record coerces
`wins` with `int` (the field holds an integer); the field types `Rat` versus
`Int` of the two structures record this. -/
theorem c10_wins_converters :
    (∀ (d : List (String × PyVal)) (v : PyVal) (r : DriverStandingDTO),
        dlookup d "wins" = some v → DriverStandingDTO.fromDict d = Except.ok r →
        pyFloatCoerce v = Except.ok r.wins) ∧
    (∀ (d : List (String × PyVal)) (v : PyVal) (r : ConstructorStandingDTO),
        dlookup d "wins" = some v → ConstructorStandingDTO.fromDict d = Except.ok r →
        pyIntCoerce v = Except.ok r.wins) :=
  ⟨c10_driver_part, c10_ctor_part⟩

/-- A raw constructor item as the API delivers it. -/
def exConstructorRaw : List (String × PyVal) :=
  [("constructorId", PyVal.vstr "red_bull"), ("url", PyVal.vstr "cu"),
   ("name", PyVal.vstr "Red Bull"), ("nationality", PyVal.vstr "Austrian")]

/-- A raw driver item as the API delivers it. -/
def exDriverRaw : List (String × PyVal) :=
  [("driverId", PyVal.vstr "max_verstappen"), ("url", PyVal.vstr "du"),
   ("givenName", PyVal.vstr "Max"), ("familyName", PyVal.vstr "Verstappen"),
   ("dateOfBirth", PyVal.vstr "1997-09-30"), ("nationality", PyVal.vstr "Dutch"),
   ("permanentNumber", PyVal.vstr "33"), ("code", PyVal.vstr "VER")]

/-- A raw driver-standing item with `wins: "5"`. -/
def exDriverStandingRaw : List (String × PyVal) :=
  [("Driver", PyVal.vdict exDriverRaw), ("position", PyVal.vstr "1"),
   ("positionText", PyVal.vstr "1"), ("points", PyVal.vstr "110"),
   ("wins", PyVal.vstr "5"), ("Constructors", PyVal.vlist [PyVal.vdict exConstructorRaw])]

/-- A raw constructor-standing item with `wins: "5"`. -/
def exConstructorStandingRaw : List (String × PyVal) :=
  [("Constructor", PyVal.vdict exConstructorRaw), ("position", PyVal.vstr "1"),
   ("positionText", PyVal.vstr "1"), ("points", PyVal.vstr "150"), ("wins", PyVal.vstr "5")]

/-- The record built from `exDriverRaw`. -/
def exDriverRec : DriverDTO :=
  ⟨PyVal.vstr "max_verstappen", PyVal.vstr "du", PyVal.vstr "Max", PyVal.vstr "Verstappen",
   ⟨1997, 9, 30⟩, PyVal.vstr "Dutch", some 33, PyVal.vstr "VER"⟩

/-- The record built from `exConstructorRaw`. -/
def exConstructorRec : ConstructorDTO :=
  ⟨PyVal.vstr "red_bull", PyVal.vstr "cu", PyVal.vstr "Red Bull", PyVal.vstr "Austrian"⟩

/-- C10 witness: on the concrete standing items with raw `wins` string
`"5"`, the driver record's field is the float 5.0 and the constructor
record's field the integer 5. -/
theorem c10_wins_converters_witness :
    DriverStandingDTO.fromDict exDriverStandingRaw
      = Except.ok ⟨exDriverRec, 1, PyVal.vstr "1", 110, 5, [exConstructorRec]⟩ ∧
    ConstructorStandingDTO.fromDict exConstructorStandingRaw
      = Except.ok ⟨exConstructorRec, 1, PyVal.vstr "1", 150, 5⟩ ∧
    pyFloatCoerce (PyVal.vstr "5") = Except.ok (5 : Rat) ∧
    pyIntCoerce (PyVal.vstr "5") = Except.ok (5 : Int) :=
  ⟨rfl, rfl,
   c10_wins_converters.1 exDriverStandingRaw (PyVal.vstr "5")
     ⟨exDriverRec, 1, PyVal.vstr "1", 110, 5, [exConstructorRec]⟩ rfl rfl,
   c10_wins_converters.2 exConstructorStandingRaw (PyVal.vstr "5")
     ⟨exConstructorRec, 1, PyVal.vstr "1", 150, 5⟩ rfl rfl⟩

/-- C7 (formalized for the cited `DriverDTO`): if the coercion of the
date-of-birth field or of a supplied non-`None` permanent number fails, the
whole construction fails — no record value is produced. -/
theorem c7_construction_all_or_nothing (d : List (String × PyVal))
    (h : (∃ v, dlookup d "dateOfBirth" = some v ∧ exOk (to_dateVal v) = false) ∨
         (∃ v, dlookup d "permanentNumber" = some v ∧ v ≠ PyVal.vnone ∧
               exOk (pyIntCoerce v) = false)) :
    exOk (DriverDTO.fromDict d) = false := by
  cases hres : DriverDTO.fromDict d with
  | error e => rfl
  | ok r =>
      exfalso
      unfold DriverDTO.fromDict at hres
      split at hres
      · exact absurd hres (by simp [Bind.bind, Except.bind])
      · obtain ⟨u0, hu0, hres⟩ := exBind_ok hres
        obtain ⟨b1, h1, hres⟩ := exBind_ok hres
        obtain ⟨b2, h2, hres⟩ := exBind_ok hres
        obtain ⟨b3, h3, hres⟩ := exBind_ok hres
        obtain ⟨b4, h4, hres⟩ := exBind_ok hres
        obtain ⟨b5, h5, hres⟩ := exBind_ok hres
        obtain ⟨b6, h6, hres⟩ := exBind_ok hres
        obtain ⟨b7, h7, hres⟩ := exBind_ok hres
        obtain ⟨b8, h8, hres⟩ := exBind_ok hres
        rcases h with ⟨v, hlv, hfail⟩ | ⟨v, hlv, hne, hfail⟩
        · have hb5 : b5 = v := by
            have hx : getReq d "dateOfBirth" = Except.ok b5 := h5
            rw [getReq, hlv] at hx
            exact (by simpa using hx : v = b5).symm
          rw [hb5] at h6
          rw [h6] at hfail
          simp [exOk] at hfail
        · rw [optConv, hlv] at h8
          cases v with
          | vnone => exact hne rfl
          | vstr s =>
              have h8r : Except.map some (pyIntCoerce (PyVal.vstr s)) = Except.ok b8 := h8
              cases hpc : pyIntCoerce (PyVal.vstr s) with
              | ok w => rw [hpc] at hfail; simp [exOk] at hfail
              | error e => rw [hpc] at h8r; exact absurd h8r (by simp [Except.map])
          | vint n =>
              have h8r : Except.map some (pyIntCoerce (PyVal.vint n)) = Except.ok b8 := h8
              cases hpc : pyIntCoerce (PyVal.vint n) with
              | ok w => rw [hpc] at hfail; simp [exOk] at hfail
              | error e => rw [hpc] at h8r; exact absurd h8r (by simp [Except.map])
          | vfloat q =>
              have h8r : Except.map some (pyIntCoerce (PyVal.vfloat q)) = Except.ok b8 := h8
              cases hpc : pyIntCoerce (PyVal.vfloat q) with
              | ok w => rw [hpc] at hfail; simp [exOk] at hfail
              | error e => rw [hpc] at h8r; exact absurd h8r (by simp [Except.map])
          | vdate a b c =>
              have h8r : Except.map some (pyIntCoerce (PyVal.vdate a b c)) = Except.ok b8 := h8
              cases hpc : pyIntCoerce (PyVal.vdate a b c) with
              | ok w => rw [hpc] at hfail; simp [exOk] at hfail
              | error e => rw [hpc] at h8r; exact absurd h8r (by simp [Except.map])
          | vtime a b c =>
              have h8r : Except.map some (pyIntCoerce (PyVal.vtime a b c)) = Except.ok b8 := h8
              cases hpc : pyIntCoerce (PyVal.vtime a b c) with
              | ok w => rw [hpc] at hfail; simp [exOk] at hfail
              | error e => rw [hpc] at h8r; exact absurd h8r (by simp [Except.map])
          | vdict l2 =>
              have h8r : Except.map some (pyIntCoerce (PyVal.vdict l2)) = Except.ok b8 := h8
              cases hpc : pyIntCoerce (PyVal.vdict l2) with
              | ok w => rw [hpc] at hfail; simp [exOk] at hfail
              | error e => rw [hpc] at h8r; exact absurd h8r (by simp [Except.map])
          | vlist l2 =>
              have h8r : Except.map some (pyIntCoerce (PyVal.vlist l2)) = Except.ok b8 := h8
              cases hpc : pyIntCoerce (PyVal.vlist l2) with
              | ok w => rw [hpc] at hfail; simp [exOk] at hfail
              | error e => rw [hpc] at h8r; exact absurd h8r (by simp [Except.map])

/-- A raw driver item whose `dateOfBirth` is malformed. -/
def exBadDriverRaw : List (String × PyVal) :=
  [("driverId", PyVal.vstr "x"), ("url", PyVal.vstr "u"),
   ("givenName", PyVal.vstr "A"), ("familyName", PyVal.vstr "B"),
   ("dateOfBirth", PyVal.vstr "not-a-date"), ("nationality", PyVal.vstr "C")]

/-- C7 witness: the malformed date aborts the whole construction. -/
theorem c7_construction_all_or_nothing_witness :
    dlookup exBadDriverRaw "dateOfBirth" = some (PyVal.vstr "not-a-date") ∧
    exOk (to_dateVal (PyVal.vstr "not-a-date")) = false ∧
    exOk (DriverDTO.fromDict exBadDriverRaw) = false :=
  ⟨rfl, rfl,
   c7_construction_all_or_nothing exBadDriverRaw
     (Or.inl ⟨PyVal.vstr "not-a-date", rfl, rfl⟩)⟩

/-! ### Claim C4 — race construction flattens the practice sub-objects -/

/-- A raw location item. -/

def exLocationRaw : List (String × PyVal) :=
  [("lat", PyVal.vstr "44"), ("long", PyVal.vstr "11"),
   ("locality", PyVal.vstr "Imola"), ("country", PyVal.vstr "Italy")]

/-- A raw circuit item with its nested location. -/
def exCircuitRaw : List (String × PyVal) :=
  [("circuitId", PyVal.vstr "imola"), ("url", PyVal.vstr "cu"),
   ("circuitName", PyVal.vstr "Autodromo"), ("Location", PyVal.vdict exLocationRaw)]

/-- A raw race item whose `FirstPractice` sub-object carries the given date
and time strings. -/
def exRaceItem (ds ts : String) : List (String × PyVal) :=
  [("season", PyVal.vstr "2022"), ("round", PyVal.vstr "4"), ("url", PyVal.vstr "ru"),
   ("raceName", PyVal.vstr "Emilia Romagna Grand Prix"),
   ("Circuit", PyVal.vdict exCircuitRaw), ("date", PyVal.vstr "2022-04-24"),
   ("FirstPractice", PyVal.vdict [("date", PyVal.vstr ds), ("time", PyVal.vstr ts)])]


/-- The record built from `exCircuitRaw`. -/
def exCircuitRec : CircuitDTO :=
  ⟨PyVal.vstr "imola", PyVal.vstr "cu", PyVal.vstr "Autodromo",
   ⟨(44 : Rat), (11 : Rat), PyVal.vstr "Imola", PyVal.vstr "Italy"⟩⟩

/-- The race record that `get_races` builds from `exRaceItem`. -/
def exRaceRec (D : Date) (T : Time) : RaceDTO :=
  ⟨2022, 4, PyVal.vstr "ru", PyVal.vstr "Emilia Romagna Grand Prix", exCircuitRec,
   ⟨2022, 4, 24⟩, Option.none, some D, some T, Option.none, Option.none,
   Option.none, Option.none, Option.none, Option.none, Option.none, Option.none⟩

/-- C4: constructing the race record through `get_races`' flattening step
populates `firstpracticeDate`/`firstpracticeTime` with the coerced values of
the nested `FirstPractice` sub-object, and no `FirstPractice` key remains in
the record's plain or flat dictionary form. -/
theorem c4_race_flattening (ds ts : String) (D : Date) (T : Time)
    (hd : to_dateVal (PyVal.vstr ds) = Except.ok D)
    (ht : to_timeVal (PyVal.vstr ts) = Except.ok T) :
    race_from_item (exRaceItem ds ts) = Except.ok (exRaceRec D T) ∧
    (exRaceRec D T).firstpracticeDate = some D ∧
    (exRaceRec D T).firstpracticeTime = some T ∧
    "FirstPractice" ∉ ((exRaceRec D T).to_dict).map Prod.fst ∧
    "FirstPractice" ∉ ((exRaceRec D T).to_flat_dict).map Prod.fst := by
  refine ⟨?_, rfl, rfl, ?_, ?_⟩
  · have hflat : flat_dict (exRaceItem ds ts) (some raceKeys)
        = [("season", PyVal.vstr "2022"), ("round", PyVal.vstr "4"), ("url", PyVal.vstr "ru"),
           ("raceName", PyVal.vstr "Emilia Romagna Grand Prix"),
           ("Circuit", PyVal.vdict exCircuitRaw), ("date", PyVal.vstr "2022-04-24"),
           ("firstpracticeDate", PyVal.vstr ds), ("firstpracticeTime", PyVal.vstr ts)] := by
      simp [exRaceItem, flat_dict, flattenGen, dictOf, dictInsert, keysTruthy,
        keyMem, raceKeys, pyLower, pyCapitalize]
    have hstep : RaceDTO.fromDict
        [("season", PyVal.vstr "2022"), ("round", PyVal.vstr "4"), ("url", PyVal.vstr "ru"),
         ("raceName", PyVal.vstr "Emilia Romagna Grand Prix"),
         ("Circuit", PyVal.vdict exCircuitRaw), ("date", PyVal.vstr "2022-04-24"),
         ("firstpracticeDate", PyVal.vstr ds), ("firstpracticeTime", PyVal.vstr ts)]
        = (Except.map some (to_dateVal (PyVal.vstr ds))) >>= (fun fpD =>
            (Except.map some (to_timeVal (PyVal.vstr ts))) >>= (fun fpT =>
              Except.ok (⟨2022, 4, PyVal.vstr "ru", PyVal.vstr "Emilia Romagna Grand Prix", exCircuitRec,
                ⟨2022, 4, 24⟩, Option.none, fpD, fpT, Option.none, Option.none,
                Option.none, Option.none, Option.none, Option.none, Option.none,
                Option.none⟩ : RaceDTO))) := rfl
    show RaceDTO.fromDict (flat_dict (exRaceItem ds ts) (some raceKeys)) = _
    rw [hflat, hstep, hd, ht]
    simp [Except.map, Bind.bind, Except.bind, exRaceRec]
  · simp [RaceDTO.to_dict, exRaceRec, exCircuitRec, CircuitDTO.toDictVal, LocationDTO.toDictVal]
  · simp [RaceDTO.to_flat_dict, RaceDTO.to_dict, exRaceRec, exCircuitRec,
      CircuitDTO.toDictVal, LocationDTO.toDictVal, flat_dict, flattenGen, dictOf,
      dictInsert, keysTruthy, pyLower, pyCapitalize, dateToVal, optDateToVal,
      optTimeToVal, timeToVal]

/-- C4 witness: the race pipeline at concrete practice date `2022-04-22` and
time `11:30:00Z`. -/
theorem c4_race_flattening_witness :
    race_from_item (exRaceItem "2022-04-22" "11:30:00Z")
      = Except.ok (exRaceRec ⟨2022, 4, 22⟩ ⟨11, 30, 0, true⟩) ∧
    (exRaceRec ⟨2022, 4, 22⟩ ⟨11, 30, 0, true⟩).firstpracticeDate = some ⟨2022, 4, 22⟩ ∧
    (exRaceRec ⟨2022, 4, 22⟩ ⟨11, 30, 0, true⟩).firstpracticeTime = some ⟨11, 30, 0, true⟩ ∧
    "FirstPractice" ∉ ((exRaceRec ⟨2022, 4, 22⟩ ⟨11, 30, 0, true⟩).to_dict).map Prod.fst ∧
    "FirstPractice" ∉ ((exRaceRec ⟨2022, 4, 22⟩ ⟨11, 30, 0, true⟩).to_flat_dict).map Prod.fst :=
  c4_race_flattening "2022-04-22" "11:30:00Z" ⟨2022, 4, 22⟩ ⟨11, 30, 0, true⟩ rfl rfl

/-! ### Claim C1 — envelope validation and record counts -/

/-- A comprehension over a list whose every element maps successfully yields
exactly one output per element, in order. -/
theorem exceptMap_ok_of_all {α β : Type} (f : α → Except PyErr β) (l : List α)
    (h : ∀ x ∈ l, ∃ y, f x = Except.ok y) :
    ∃ rs, exceptMap f l = Except.ok rs ∧ rs.length = l.length ∧
      ∀ (i : Nat) (hi : i < l.length) (hr : i < rs.length),
        f (l.get ⟨i, hi⟩) = Except.ok (rs.get ⟨i, hr⟩) := by
  induction l with
  | nil =>
      refine ⟨[], rfl, rfl, ?_⟩
      intro i hi
      exact absurd hi (by simp)
  | cons x rest ih =>
      obtain ⟨y, hy⟩ := h x (List.mem_cons_self _ _)
      obtain ⟨rs, hrs, hlen, hidx⟩ := ih (fun z hz => h z (List.mem_cons_of_mem _ hz))
      refine ⟨y :: rs, ?_, by simp [hlen], ?_⟩
      · simp [exceptMap, hy, hrs, Bind.bind, Except.bind, pure, Except.pure]
      · intro i hi hr
        cases i with
        | zero => simpa using hy
        | succ n =>
            simpa using hidx n (by simpa using hi) (by simpa using hr)

/-- C1: for an HTTP-successful response whose envelope carries an
int-coercible `total`, `_make_request` raises `WrongQueryParameters` exactly
when that total is at most 0; and when the total is positive and every item
of the `Drivers` array constructs, `get_drivers` returns exactly one
`DriverDTO` per item, in array order. -/
theorem c1_empty_result_and_record_count (status : Nat) (body mr tv : PyVal) (t : Int)
    (hstat : status < 400)
    (h1 : getItem body "MRData" = Except.ok mr)
    (h2 : getItem mr "total" = Except.ok tv)
    (h3 : pyIntCoerce tv = Except.ok t) :
    (make_request status body = Except.error PyErr.wrongQueryParameters ↔ t ≤ 0) ∧
    (∀ (year race : Seg) (dt : PyVal) (items : List PyVal),
        0 < t →
        getItem mr "DriverTable" = Except.ok dt →
        getItem dt "Drivers" = Except.ok (PyVal.vlist items) →
        (∀ x ∈ items, ∃ dx r, x = PyVal.vdict dx ∧ DriverDTO.fromDict dx = Except.ok r) →
        ∃ rs, get_drivers year race status body = Except.ok rs ∧
          rs.length = items.length ∧
          ∀ (i : Nat) (hi : i < items.length) (hr : i < rs.length),
            (asDictE (items.get ⟨i, hi⟩) >>= DriverDTO.fromDict)
              = Except.ok (rs.get ⟨i, hr⟩)) := by
  have hmr : make_request status body
      = if t ≤ 0 then Except.error PyErr.wrongQueryParameters else Except.ok body := by
    unfold make_request
    simp [hstat, h1, h2, h3, Bind.bind, Except.bind, pure, Except.pure]
  constructor
  · rw [hmr]
    by_cases hT : t ≤ 0
    · simp [hT]
    · simp [hT]
  · intro year race dt items ht h4 h5 h6
    have hmr2 : make_request status body = Except.ok body := by
      rw [hmr]
      simp [show ¬ t ≤ 0 from by omega]
    have hall : ∀ x ∈ items, ∃ y, (asDictE x >>= DriverDTO.fromDict) = Except.ok y := by
      intro x hx
      obtain ⟨dx, r, hxd, hr⟩ := h6 x hx
      exact ⟨r, by rw [hxd]; simpa [Bind.bind, Except.bind, asDictE] using hr⟩
    obtain ⟨rs, hrs, hlen, hidx⟩ := exceptMap_ok_of_all _ items hall
    refine ⟨rs, ?_, hlen, hidx⟩
    unfold get_drivers
    simp [hmr2, h1, h4, h5, Bind.bind, Except.bind, pure, Except.pure, asListE]
    exact hrs

/-- A second raw driver item. -/
def exDriver2Raw : List (String × PyVal) :=
  [("driverId", PyVal.vstr "leclerc"), ("url", PyVal.vstr "du2"),
   ("givenName", PyVal.vstr "Charles"), ("familyName", PyVal.vstr "Leclerc"),
   ("dateOfBirth", PyVal.vstr "1997-10-16"), ("nationality", PyVal.vstr "Monegasque"),
   ("permanentNumber", PyVal.vstr "16"), ("code", PyVal.vstr "LEC")]

/-- The record built from `exDriver2Raw`. -/
def exDriver2Rec : DriverDTO :=
  ⟨PyVal.vstr "leclerc", PyVal.vstr "du2", PyVal.vstr "Charles", PyVal.vstr "Leclerc",
   ⟨1997, 10, 16⟩, PyVal.vstr "Monegasque", some 16, PyVal.vstr "LEC"⟩

/-- A `DriverTable` container holding two driver items. -/
def exDriverTable : PyVal :=
  PyVal.vdict [("Drivers", PyVal.vlist [PyVal.vdict exDriverRaw, PyVal.vdict exDriver2Raw])]

/-- An `MRData` envelope body with `total: "2"`. -/
def exMRData : PyVal :=
  PyVal.vdict [("total", PyVal.vstr "2"), ("DriverTable", exDriverTable)]

/-- A full parsed response body. -/
def exEnvelope : PyVal := PyVal.vdict [("MRData", exMRData)]

/-- The length of a successful result list. -/
def okLength {β : Type} : Except PyErr (List β) → Option Nat
  | Except.ok l => some l.length
  | Except.error _ => Option.none

/-- C1 witness: the two-driver envelope with `total: "2"` under status 200
does not raise `EmptyResult` and yields exactly 2 records. -/
theorem c1_empty_result_and_record_count_witness :
    (make_request 200 exEnvelope = Except.error PyErr.wrongQueryParameters ↔ (2 : Int) ≤ 0) ∧
    okLength (get_drivers Seg.null Seg.null 200 exEnvelope) = some 2 := by
  have h := c1_empty_result_and_record_count 200 exEnvelope exMRData (PyVal.vstr "2") 2 (by omega) rfl rfl rfl
  refine ⟨h.1, ?_⟩
  have hall : ∀ x ∈ [PyVal.vdict exDriverRaw, PyVal.vdict exDriver2Raw],
      ∃ dx r, x = PyVal.vdict dx ∧ DriverDTO.fromDict dx = Except.ok r := by
    intro x hx
    simp only [List.mem_cons, List.not_mem_nil, or_false] at hx
    rcases hx with hx | hx
    · exact ⟨exDriverRaw, exDriverRec, by rw [hx], rfl⟩
    · exact ⟨exDriver2Raw, exDriver2Rec, by rw [hx], rfl⟩
  obtain ⟨rs, hok, hlen, -⟩ :=
    h.2 Seg.null Seg.null exDriverTable [PyVal.vdict exDriverRaw, PyVal.vdict exDriver2Raw]
      (by omega) rfl rfl hall
  rw [hok]
  simp [okLength, hlen]
